import Mathlib

/-!
Shallow embedding of src/runtime/processor.rs from the coio-rs repository.

The Processor is the per-thread scheduling core of an M:N coroutine scheduler.
We model a single Processor as an explicit state record and translate the
operations of processor.rs into pure Lean functions:

  - the local run queue (deque Worker side) is a list whose head is the owner
    end: Worker push conses, Worker pop takes the head (owner LIFO);
  - the Inbox (mpsc channel) is a list whose head is the oldest message:
    send appends at the back, recv and try_recv take the head (FIFO);
  - coroutines are scripts: a Program maps a coroutine id to the list of
    segments its body runs, one segment per resume; a segment is a list of
    observable actions followed by the yield that ends it (finish, a sched
    style Suspended yield, or a park_with style Parked yield carrying the
    descriptor word);
  - Processor.resume mirrors lines 387 to 440 of processor.rs: install the
    handle as current, run one segment, take current back and dispatch on
    the yielded state;
  - Processor.schedule mirrors lines 292 to 385: drain local queue, drain
    Inbox with the dirty flag and restart rule, steal from neighbors, park
    on the blocking recv, and the shutdown drain after the loop exits.

The loop consumes fuel (a bound on the number of outer iterations and pops);
exceeding it yields the outOfFuel result, which never happens on the
concrete scenarios below.  External messages that arrive while the
Processor is parked are modelled by the arrivals list, consumed only by the
blocking recv (the closed scenarios leave it empty).

Ghost fields (output, dropped, parkedCalls, resumeLog, stealTried, panicked)
record observable events and never influence control flow.
-/

namespace CoioModel

/-- Modelled from the spec: the coroutine State enum lives in coroutine.rs,
which is not under src/.  The spec lists Suspended, Parked, Finished and an
invariant violating running sentinel. -/
inductive State where
  | Suspended
  | Parked
  | Running
  | Finished
deriving DecidableEq

/-- An owning coroutine handle: the coroutine id, the program counter (how
many times it has been resumed), its recorded State, and the preferred
processor back reference (set_preferred_processor), abstracted to the
processor id. -/
structure Handle where
  cid : Nat
  pc : Nat := 0
  st : State := State.Suspended
  pref : Option Nat := none
deriving DecidableEq

/-- The ProcMessage enum of processor.rs: NewNeighbor carries a stealer onto
a peer queue (modelled as the list of handles that can be stolen from it),
Ready carries a coroutine handle, Shutdown asks the processor to exit. -/
inductive ProcMessage where
  | NewNeighbor (stealer : List Handle)
  | Ready (coro : Handle)
  | Shutdown
deriving DecidableEq

/-- One observable action a coroutine body performs while running: emit
writes a value to a shared vector (the observable effect used by the tests),
spawn creates a child coroutine and readies it locally
(ProcessorHandle.spawn_opts: set the preferred processor, then ready). -/
inductive CoroAction where
  | emit (v : Nat)
  | spawn (cid : Nat)
deriving DecidableEq

/-- How a segment of coroutine execution ends: the body returns (finish),
the body calls sched which yields with State.Suspended, or the body calls
park_with which yields with State.Parked and a carrier word.  The carrier
word is zero (none) or a pointer to the two word descriptor built on the
coroutine stack (some (fnPtr, dataPtr)), both words abstracted to Nat. -/
inductive Yield where
  | finish
  | suspend
  | parkCarrier (descriptor : Option (Nat × Nat))
deriving DecidableEq

/-- One resume worth of coroutine execution: the actions run, then the
yield that hands control back to the driver. -/
structure Segment where
  acts : List CoroAction
  yld : Yield
deriving DecidableEq

/-- A program assigns to each coroutine id the script of its body. -/
abbrev Program := Nat → List Segment

/-- The state of one Processor (ProcessorInner of processor.rs) together
with the ghost observation fields. -/
structure ProcState where
  procId : Nat
  queue : List Handle := []
  inbox : List ProcMessage := []
  arrivals : List ProcMessage := []
  neighbors : List (List Handle) := []
  current : Option Handle := none
  rng : Nat := 0
  idleSet : Bool := false
  output : List Nat := []
  dropped : List Nat := []
  parkedCalls : List (Nat × Nat × Nat) := []
  resumeLog : List Nat := []
  stealTried : List Nat := []
  panicked : Bool := false
deriving DecidableEq

/-- Processor.ready (lines 442 to 445): push the handle onto the owner end
of the local work stealing queue. -/
def Processor.ready (s : ProcState) (coro : Handle) : ProcState :=
  { s with queue := coro :: s.queue }

/-- Modelled from the spec: Coroutine.yield_with lives in coroutine.rs,
which is not under src/; it records the yielded state on the coroutine and
context switches back to the driver.  Abstracted as updating the recorded
State of the handle. -/
def Coroutine.yieldWith (c : Handle) (r : State) : Handle :=
  { c with st := r }

/-- Processor.yield_with (lines 452 to 457): if a coroutine is current,
yield it with the given state; otherwise do nothing. -/
def Processor.yield_with (s : ProcState) (r : State) : ProcState :=
  match s.current with
  | none => s
  | some c => { s with current := some (Coroutine.yieldWith c r) }

/-- Processor.sched (lines 447 to 450): yield the current coroutine with
State.Suspended. -/
def Processor.sched (s : ProcState) : ProcState :=
  Processor.yield_with s State.Suspended

/-- Effect of one coroutine action on the processor state. -/
def applyAction (s : ProcState) : CoroAction → ProcState
  | CoroAction.emit v => { s with output := s.output ++ [v] }
  | CoroAction.spawn c =>
      Processor.ready s { cid := c, pc := 0, st := State.Suspended, pref := some s.procId }

/-- Effect of a list of coroutine actions, left to right. -/
def applyActions (s : ProcState) (acts : List CoroAction) : ProcState :=
  acts.foldl applyAction s

/-- The driver dispatch after a resume returns (lines 402 to 439 of
processor.rs): take the coroutine out of current; if it is finished the
handle is dropped; on Suspended the handle is sent to the own Inbox as a
Ready message; on Parked a nonzero carrier word is read as the descriptor
(fnPtr, dataPtr) and the continuation is invoked with the handle (recorded
in parkedCalls), a zero carrier word drops the handle; any other state is a
bug (recorded in panicked). -/
def driverDispatch (s : ProcState) (c : Handle) (data : Option (Nat × Nat)) : ProcState :=
  let s1 := { s with current := none }
  if c.st = State.Finished then
    { s1 with dropped := s1.dropped ++ [c.cid] }
  else
    match c.st with
    | State.Suspended => { s1 with inbox := s1.inbox ++ [ProcMessage.Ready c] }
    | State.Parked =>
        match data with
        | some (f, d) => { s1 with parkedCalls := s1.parkedCalls ++ [(f, d, c.cid)] }
        | none => { s1 with dropped := s1.dropped ++ [c.cid] }
    | _ => { s1 with panicked := true }

/-- Processor.resume (lines 387 to 440): install the handle as current,
run one segment of its body (an exhausted script behaves like a body that
returns at once), then dispatch on the yielded state and carrier word. -/
def Processor.resume (prog : Program) (s : ProcState) (coro : Handle) : ProcState :=
  let s1 := { s with current := some coro, resumeLog := s.resumeLog ++ [coro.cid] }
  match (prog coro.cid).get? coro.pc with
  | none =>
      driverDispatch s1 { coro with st := State.Finished, pc := coro.pc + 1 } none
  | some seg =>
      let s2 := applyActions s1 seg.acts
      match seg.yld with
      | Yield.finish =>
          driverDispatch s2 { coro with st := State.Finished, pc := coro.pc + 1 } none
      | Yield.suspend =>
          driverDispatch s2 { coro with st := State.Suspended, pc := coro.pc + 1 } none
      | Yield.parkCarrier d =>
          driverDispatch s2 { coro with st := State.Parked, pc := coro.pc + 1 } d

/-- Step 1 of the scheduling loop (lines 296 to 299): while the local queue
pops a handle, resume it.  Fuel bounds the number of pops; none means the
fuel ran out. -/
def drainLocal (prog : Program) : Nat → ProcState → Option ProcState
  | 0, _ => none
  | fuel + 1, s =>
      match s.queue with
      | [] => some s
      | h :: rest => drainLocal prog fuel (Processor.resume prog { s with queue := rest } h)

/-- Result of the non blocking Inbox drain: either a Shutdown message broke
the outer loop, or the drain finished with the dirty flag. -/
inductive InboxResult where
  | shutdown (s : ProcState)
  | cont (dirty : Bool) (s : ProcState)
deriving DecidableEq

/-- The state carried by an InboxResult. -/
def InboxResult.st : InboxResult → ProcState
  | InboxResult.shutdown s => s
  | InboxResult.cont _ s => s

/-- Step 2 of the scheduling loop (lines 301 to 318), iterating over the
messages in the channel: NewNeighbor appends the stealer, Shutdown breaks
the outer loop leaving the rest of the channel intact, Ready tags the
preferred processor and pushes the handle onto the local queue, marking the
queue dirty. -/
def drainInboxGo : List ProcMessage → Bool → ProcState → InboxResult
  | [], dirty, s => InboxResult.cont dirty s
  | m :: rest, dirty, s =>
      match m with
      | ProcMessage.NewNeighbor n =>
          drainInboxGo rest dirty { s with neighbors := s.neighbors ++ [n] }
      | ProcMessage.Shutdown => InboxResult.shutdown { s with inbox := rest }
      | ProcMessage.Ready c =>
          drainInboxGo rest true (Processor.ready s { c with pref := some s.procId })

/-- Step 2 entry: take the pending messages out of the channel and process
them in FIFO order with the dirty flag initially false. -/
def drainInbox (s : ProcState) : InboxResult :=
  drainInboxGo s.inbox false { s with inbox := [] }

/-- Modelled abstraction of rand::XorShiftRng (the rand crate is external):
the rng field is an abstract seed and gen returns it, advancing the seed.
No claim depends on the distribution of the values. -/
def rngNext (n : Nat) : Nat :=
  n + 1

/-- Result of the steal phase: either a handle was stolen and resumed
(restart the outer loop) or nothing was stolen (fall through to park). -/
inductive StealOutcome where
  | resumedOne (s : ProcState)
  | nothingStolen (s : ProcState)
deriving DecidableEq

/-- One steal attempt against neighbor j: Data pops the exposed end of the
victim queue; Empty and Abort both leave the state alone (the code treats
Abort like Empty for a given victim on a given attempt). -/
def stealOne (s : ProcState) (j : Nat) : Option Handle × ProcState :=
  match s.neighbors.get? j with
  | some (h :: t) => (some h, { s with neighbors := s.neighbors.set j t })
  | _ => (none, s)

/-- Step 3 inner loop (lines 332 to 340): walk the index ring once starting
at the random index; on the first successful steal resume the stolen handle
and restart the outer loop.  Each attempted victim index is recorded in the
stealTried ghost field. -/
def stealLoopGo (prog : Program) (randIdx n : Nat) : List Nat → ProcState → StealOutcome
  | [], s => StealOutcome.nothingStolen s
  | i :: is, s =>
      match stealOne { s with stealTried := s.stealTried ++ [(randIdx + i) % n] }
              ((randIdx + i) % n) with
      | (some h, s2) => StealOutcome.resumedOne (Processor.resume prog s2 h)
      | (none, s2) => stealLoopGo prog randIdx n is s2

/-- Step 3 of the scheduling loop (lines 326 to 340): the number of
stealers is read once; the for loop runs over 0..total_stealers, so with no
neighbors there are zero attempts and the modulo is never evaluated. -/
def stealPhase (prog : Program) (randIdx : Nat) (s : ProcState) : StealOutcome :=
  stealLoopGo prog randIdx s.neighbors.length (List.range s.neighbors.length) s

/-- Outcome of the park step: the blocking recv never returns (no pending
message and no future arrival), a Shutdown message exits the loop, or a
message was handled and the loop continues. -/
inductive ParkOutcome where
  | blockedForever (s : ProcState)
  | exitShutdown (s : ProcState)
  | resumedLoop (s : ProcState)
deriving DecidableEq

/-- The blocking recv of the park step: take the oldest pending channel
message, or the next external arrival, or block forever. -/
def recvBlocking (s : ProcState) : Option (ProcMessage × ProcState) :=
  match s.inbox with
  | m :: rest => some (m, { s with inbox := rest })
  | [] =>
      match s.arrivals with
      | a :: rest => some (a, { s with arrivals := rest })
      | [] => none

/-- Steps 4 and 5 of the scheduling loop (lines 342 to 364): record the
Processor as idle with the Scheduler (park_processor, modelled from the
spec as setting the idle flag), blocking receive one message, handle it as
in step 2, and afterwards clear the idle record (unpark_processor) -- except
on Shutdown, which breaks the outer loop at once without unparking. -/
def parkStep (s : ProcState) : ParkOutcome :=
  let s0 := { s with idleSet := true }
  match recvBlocking s0 with
  | none => ParkOutcome.blockedForever s0
  | some (m, s1) =>
      match m with
      | ProcMessage.NewNeighbor n =>
          ParkOutcome.resumedLoop { s1 with neighbors := s1.neighbors ++ [n], idleSet := false }
      | ProcMessage.Shutdown => ParkOutcome.exitShutdown s1
      | ProcMessage.Ready c =>
          let s2 := Processor.ready s1 { c with pref := some s1.procId }
          ParkOutcome.resumedLoop { s2 with idleSet := false }

/-- The shutdown drain of the channel (lines 366 to 375): every pending
Ready message has its handle dropped, every other message is ignored. -/
def drainChannelGo : List ProcMessage → ProcState → ProcState
  | [], s => s
  | m :: rest, s =>
      match m with
      | ProcMessage.Ready c => drainChannelGo rest { s with dropped := s.dropped ++ [c.cid] }
      | _ => drainChannelGo rest s

/-- The shutdown drain of the local queue (lines 377 to 382): every popped
handle is dropped. -/
def drainQueueGo : List Handle → ProcState → ProcState
  | [], s => s
  | h :: rest, s => drainQueueGo rest { s with dropped := s.dropped ++ [h.cid] }

/-- The full shutdown drain (lines 366 to 385): first the channel, then the
local queue. -/
def shutdownDrain (s : ProcState) : ProcState :=
  let s1 := drainChannelGo s.inbox { s with inbox := [] }
  drainQueueGo s1.queue { s1 with queue := [] }

/-- The result of running the scheduling loop: exit through the shutdown
drain, block forever on the park recv, or run out of fuel. -/
inductive SchedResult where
  | shutdown (s : ProcState)
  | blocked (s : ProcState)
  | outOfFuel (s : ProcState)
deriving DecidableEq

/-- The state carried by a SchedResult. -/
def SchedResult.st : SchedResult → ProcState
  | SchedResult.shutdown s => s
  | SchedResult.blocked s => s
  | SchedResult.outOfFuel s => s

/-- Directive produced by the steal and park phase: restart the outer loop
on a state, or finish with a result. -/
inductive LoopCmd where
  | restart (s : ProcState)
  | done (r : SchedResult)
deriving DecidableEq

/-- Translate a park outcome into a loop directive (Shutdown exits through
the shutdown drain; a handled message restarts the outer loop). -/
def cmdOfPark : ParkOutcome → LoopCmd
  | ParkOutcome.blockedForever s => LoopCmd.done (SchedResult.blocked s)
  | ParkOutcome.exitShutdown s => LoopCmd.done (SchedResult.shutdown (shutdownDrain s))
  | ParkOutcome.resumedLoop s => LoopCmd.restart s

/-- Steps 3 to 5 of an outer iteration: draw the random start index, try to
steal once around the ring (restarting the loop on success), otherwise
park. -/
def stealParkStep (prog : Program) (s : ProcState) : LoopCmd :=
  let randIdx := s.rng
  let s1 := { s with rng := rngNext s.rng }
  match stealPhase prog randIdx s1 with
  | StealOutcome.resumedOne s2 => LoopCmd.restart s2
  | StealOutcome.nothingStolen s2 => cmdOfPark (parkStep s2)

/-- Processor.schedule (lines 292 to 385): the outer loop.  One iteration
drains the local queue, then the Inbox; a dirty queue restarts the loop, a
Shutdown exits through the shutdown drain, otherwise the steal and park
phase runs.  Fuel bounds the number of outer iterations and of pops inside
one local drain. -/
def Processor.schedule (prog : Program) : Nat → ProcState → SchedResult
  | 0, s => SchedResult.outOfFuel s
  | fuel + 1, s =>
      match drainLocal prog (fuel + 1) s with
      | none => SchedResult.outOfFuel s
      | some s1 =>
          match drainInbox s1 with
          | InboxResult.shutdown s2 => SchedResult.shutdown (shutdownDrain s2)
          | InboxResult.cont true s2 => Processor.schedule prog fuel s2
          | InboxResult.cont false s2 =>
              match stealParkStep prog s2 with
              | LoopCmd.restart s3 => Processor.schedule prog fuel s3
              | LoopCmd.done r => r

/-- Run a loop directive: restart runs another outer iteration with the
remaining fuel, done returns the result.  Processor.schedule unfolds into
this function on the no dirty path; it is definitionally the inline match
of the loop body. -/
def runCmd (prog : Program) (fuel : Nat) : LoopCmd → SchedResult
  | LoopCmd.restart s => Processor.schedule prog fuel s
  | LoopCmd.done r => r

/-- The coroutine ids of the Ready messages of a message list, in order. -/
def readyCids : List ProcMessage → List Nat
  | [] => []
  | ProcMessage.Ready c :: rest => c.cid :: readyCids rest
  | _ :: rest => readyCids rest

/-- The index of the first occurrence of a coroutine id in the resume log
(length of the log when absent). -/
def firstIdx : List Nat → Nat → Nat
  | [], _ => 0
  | x :: xs, c => if x = c then 0 else firstIdx xs c + 1

/-- The index of the second occurrence of a coroutine id in the resume log
(past the end when there is no second occurrence). -/
def secondIdx : List Nat → Nat → Nat
  | [], _ => 0
  | x :: xs, c => if x = c then firstIdx xs c + 1 else secondIdx xs c + 1

/-- The program of the processor_sched_order test (lines 529 to 559):
coroutine 0 spawns children 1, 2, 3 in that order, pushes 0 to the shared
vector, calls sched, and after resuming pushes 99; child i pushes i and
returns. -/
def schedOrderProg : Program := fun cid =>
  if cid = 0 then
    [⟨[CoroAction.spawn 1, CoroAction.spawn 2, CoroAction.spawn 3, CoroAction.emit 0],
      Yield.suspend⟩,
     ⟨[CoroAction.emit 99], Yield.finish⟩]
  else if cid ≤ 3 then
    [⟨[CoroAction.emit cid], Yield.finish⟩]
  else []

/-- Start state of the processor_sched_order scenario: only the parent
coroutine is on the local queue. -/
def schedOrderStart : ProcState :=
  { procId := 0, queue := [{ cid := 0, pref := some 0 }] }

/-- The scenario of spec testable property 5, with the two observable
writes as parameters: coroutine 0 calls sched while the local queue is
empty and the Inbox holds one Ready for coroutine 1 from a peer; after
resuming, coroutine 0 emits a; coroutine 1 emits b. -/
def c4ProgAB (a b : Nat) : Program := fun cid =>
  if cid = 0 then
    [⟨[], Yield.suspend⟩, ⟨[CoroAction.emit a], Yield.finish⟩]
  else
    [⟨[CoroAction.emit b], Yield.finish⟩]

/-- The concrete instance of the scenario: the suspender emits 7 after its
sched returns, the peer delivered coroutine emits 5. -/
def c4Prog : Program := c4ProgAB 7 5

/-- Start state of the suspended yield scenario: coroutine 0 about to run,
the Inbox holding one Ready message for coroutine 1. -/
def c4Start : ProcState :=
  { procId := 0, queue := [{ cid := 0, pref := some 0 }],
    inbox := [ProcMessage.Ready { cid := 1 }] }

/-- A program under which every coroutine body returns at once. -/
def emptyProg : Program := fun _ => []

/-- An idle processor state: everything empty. -/
def idleP : ProcState := { procId := 0 }

/-- A processor state whose local queue holds the single coroutine 5. -/
def oneQueuedP : ProcState := { procId := 0, queue := [{ cid := 5 }] }

/-- A processor state whose Inbox holds one Ready message for coroutine 7. -/
def oneInboxP : ProcState := { procId := 0, inbox := [ProcMessage.Ready { cid := 7 }] }

/-- The state after the Inbox of oneInboxP is drained: coroutine 7, tagged
with this processor as preferred, sits on the local queue. -/
def oneInboxDrainedP : ProcState := { procId := 0, queue := [{ cid := 7, pref := some 0 }] }

/-- A program whose every coroutine emits 4 and then calls sched. -/
def suspendProg : Program := fun _ => [⟨[CoroAction.emit 4], Yield.suspend⟩]

/-- A program where coroutine 0 parks with the descriptor (11, 22) and
every other coroutine parks with a zero carrier word. -/
def parkProg : Program := fun cid =>
  if cid = 0 then [⟨[], Yield.parkCarrier (some (11, 22))⟩]
  else [⟨[], Yield.parkCarrier none⟩]

/-- An idle parked processor about to receive Shutdown. -/
def parkedShutdownP : ProcState := { procId := 0, arrivals := [ProcMessage.Shutdown] }

/-- An idle parked processor about to receive a NewNeighbor message. -/
def parkedNeighborP : ProcState := { procId := 0, arrivals := [ProcMessage.NewNeighbor []] }

/-- An idle parked processor about to receive a Ready message for
coroutine 9. -/
def parkedReadyP : ProcState := { procId := 0, arrivals := [ProcMessage.Ready { cid := 9 }] }

/-- A coroutine handle already preferring processor 0, used by the C6
witness. -/
def noopC : Handle := { cid := 3, pref := some 0 }

/-!
Supporting lemmas about the embedded operations, followed by one theorem
per claim (with a witness instance where the claim theorem carries
hypotheses).
-/

theorem applyAction_inbox (s : ProcState) (a : CoroAction) :
    (applyAction s a).inbox = s.inbox := by
  cases a <;> rfl

theorem applyActions_inbox (acts : List CoroAction) (s : ProcState) :
    (applyActions s acts).inbox = s.inbox := by
  induction acts generalizing s with
  | nil => rfl
  | cons a rest ih =>
      show (applyActions (applyAction s a) rest).inbox = s.inbox
      rw [ih, applyAction_inbox]

theorem applyActions_dropped (acts : List CoroAction) (s : ProcState) :
    (applyActions s acts).dropped = s.dropped := by
  induction acts generalizing s with
  | nil => rfl
  | cons a rest ih =>
      show (applyActions (applyAction s a) rest).dropped = s.dropped
      rw [ih]; cases a <;> rfl

theorem applyActions_parkedCalls (acts : List CoroAction) (s : ProcState) :
    (applyActions s acts).parkedCalls = s.parkedCalls := by
  induction acts generalizing s with
  | nil => rfl
  | cons a rest ih =>
      show (applyActions (applyAction s a) rest).parkedCalls = s.parkedCalls
      rw [ih]; cases a <;> rfl

theorem applyActions_queue_congr (acts : List CoroAction) (s t : ProcState)
    (hq : s.queue = t.queue) (hp : s.procId = t.procId) :
    (applyActions s acts).queue = (applyActions t acts).queue := by
  induction acts generalizing s t with
  | nil => exact hq
  | cons a rest ih =>
      show (applyActions (applyAction s a) rest).queue
          = (applyActions (applyAction t a) rest).queue
      apply ih
      · cases a with
        | emit v => exact hq
        | spawn c =>
            show ({ cid := c, pc := 0, st := State.Suspended, pref := some s.procId } : Handle)
                  :: s.queue
                = ({ cid := c, pc := 0, st := State.Suspended, pref := some t.procId } : Handle)
                  :: t.queue
            rw [hq, hp]
      · cases a <;> exact hp

theorem driverDispatch_queue (s : ProcState) (c : Handle) (d : Option (Nat × Nat)) :
    (driverDispatch s c d).queue = s.queue := by
  rcases hst : c.st <;> rcases d with _ | ⟨f, dd⟩ <;> simp [driverDispatch, hst]

theorem driverDispatch_suspended (s : ProcState) (c : Handle) (d : Option (Nat × Nat))
    (hst : c.st = State.Suspended) :
    (driverDispatch s c d).inbox = s.inbox ++ [ProcMessage.Ready c]
  ∧ (driverDispatch s c d).dropped = s.dropped
  ∧ (driverDispatch s c d).parkedCalls = s.parkedCalls := by
  simp [driverDispatch, hst]

theorem driverDispatch_parked_some (s : ProcState) (c : Handle) (f dd : Nat)
    (hst : c.st = State.Parked) :
    (driverDispatch s c (some (f, dd))).parkedCalls = s.parkedCalls ++ [(f, dd, c.cid)]
  ∧ (driverDispatch s c (some (f, dd))).dropped = s.dropped
  ∧ (driverDispatch s c (some (f, dd))).inbox = s.inbox := by
  simp [driverDispatch, hst]

theorem driverDispatch_parked_none (s : ProcState) (c : Handle)
    (hst : c.st = State.Parked) :
    (driverDispatch s c none).dropped = s.dropped ++ [c.cid]
  ∧ (driverDispatch s c none).parkedCalls = s.parkedCalls
  ∧ (driverDispatch s c none).inbox = s.inbox := by
  simp [driverDispatch, hst]

theorem resume_suspend (prog : Program) (s : ProcState) (h : Handle) (acts : List CoroAction)
    (hseg : (prog h.cid).get? h.pc = some ⟨acts, Yield.suspend⟩) :
    (Processor.resume prog s h).inbox
        = s.inbox ++ [ProcMessage.Ready { h with st := State.Suspended, pc := h.pc + 1 }]
  ∧ (Processor.resume prog s h).queue = (applyActions s acts).queue := by
  unfold Processor.resume
  rw [hseg]
  constructor
  · rw [(driverDispatch_suspended _ _ _ rfl).1, applyActions_inbox]
  · rw [driverDispatch_queue]
    exact applyActions_queue_congr acts _ s rfl rfl

theorem resume_parked (prog : Program) (s : ProcState) (h : Handle) (acts : List CoroAction)
    (f dd : Nat)
    (hseg : (prog h.cid).get? h.pc = some ⟨acts, Yield.parkCarrier (some (f, dd))⟩) :
    (Processor.resume prog s h).parkedCalls = s.parkedCalls ++ [(f, dd, h.cid)]
  ∧ (Processor.resume prog s h).dropped = s.dropped
  ∧ (Processor.resume prog s h).inbox = s.inbox
  ∧ (Processor.resume prog s h).queue = (applyActions s acts).queue := by
  unfold Processor.resume
  rw [hseg]
  refine ⟨?_, ?_, ?_, ?_⟩
  · rw [(driverDispatch_parked_some _ _ _ _ rfl).1, applyActions_parkedCalls]
  · rw [(driverDispatch_parked_some _ _ _ _ rfl).2.1, applyActions_dropped]
  · rw [(driverDispatch_parked_some _ _ _ _ rfl).2.2, applyActions_inbox]
  · rw [driverDispatch_queue]
    exact applyActions_queue_congr acts _ s rfl rfl

theorem resume_parked_zero (prog : Program) (s : ProcState) (h : Handle)
    (acts : List CoroAction)
    (hseg : (prog h.cid).get? h.pc = some ⟨acts, Yield.parkCarrier none⟩) :
    (Processor.resume prog s h).dropped = s.dropped ++ [h.cid]
  ∧ (Processor.resume prog s h).parkedCalls = s.parkedCalls
  ∧ (Processor.resume prog s h).inbox = s.inbox := by
  unfold Processor.resume
  rw [hseg]
  refine ⟨?_, ?_, ?_⟩
  · rw [(driverDispatch_parked_none _ _ rfl).1, applyActions_dropped]
  · rw [(driverDispatch_parked_none _ _ rfl).2.1, applyActions_parkedCalls]
  · rw [(driverDispatch_parked_none _ _ rfl).2.2, applyActions_inbox]

theorem yield_with_none (s : ProcState) (r : State) (h : s.current = none) :
    Processor.yield_with s r = s := by
  unfold Processor.yield_with
  rw [h]

theorem drainChannelGo_spec (msgs : List ProcMessage) (s : ProcState) :
    drainChannelGo msgs s = { s with dropped := s.dropped ++ readyCids msgs } := by
  induction msgs generalizing s with
  | nil => simp [drainChannelGo, readyCids]
  | cons m rest ih =>
      cases m with
      | NewNeighbor n => simp [drainChannelGo, readyCids, ih]
      | Shutdown => simp [drainChannelGo, readyCids, ih]
      | Ready c => simp [drainChannelGo, readyCids, ih]

theorem drainQueueGo_spec (hs : List Handle) (s : ProcState) :
    drainQueueGo hs s = { s with dropped := s.dropped ++ hs.map Handle.cid } := by
  induction hs generalizing s with
  | nil => simp [drainQueueGo]
  | cons h rest ih => simp [drainQueueGo, ih]

theorem shutdownDrain_spec (s : ProcState) :
    (shutdownDrain s).inbox = [] ∧ (shutdownDrain s).queue = []
  ∧ (shutdownDrain s).dropped = s.dropped ++ readyCids s.inbox ++ s.queue.map Handle.cid := by
  unfold shutdownDrain
  rw [drainChannelGo_spec, drainQueueGo_spec]
  simp

theorem foldl_ready_queue (l : List Handle) (s : ProcState) :
    (l.foldl Processor.ready s).queue = l.reverse ++ s.queue := by
  induction l generalizing s with
  | nil => simp
  | cons c rest ih =>
      show ((rest.foldl Processor.ready (Processor.ready s c)).queue) = _
      rw [ih]
      simp [Processor.ready]

theorem stealPhase_no_neighbors (prog : Program) (r : Nat) (s : ProcState)
    (h : s.neighbors = []) :
    stealPhase prog r s = StealOutcome.nothingStolen s := by
  unfold stealPhase
  rw [h]
  rfl

theorem stealParkStep_no_neighbors (prog : Program) (s : ProcState)
    (h : s.neighbors = []) :
    stealParkStep prog s = cmdOfPark (parkStep { s with rng := rngNext s.rng }) := by
  show (match stealPhase prog s.rng { s with rng := rngNext s.rng } with
        | StealOutcome.resumedOne s2 => LoopCmd.restart s2
        | StealOutcome.nothingStolen s2 => cmdOfPark (parkStep s2))
      = cmdOfPark (parkStep { s with rng := rngNext s.rng })
  rw [stealPhase_no_neighbors prog s.rng { s with rng := rngNext s.rng } h]

theorem drainLocal_pop (prog : Program) (fuel : Nat) (s : ProcState) (h : Handle)
    (t : List Handle) (hq : s.queue = h :: t) :
    drainLocal prog (fuel + 1) s
      = drainLocal prog fuel (Processor.resume prog { s with queue := t } h) := by
  conv_lhs => unfold drainLocal
  rw [hq]

theorem drainLocal_empty_queue (prog : Program) (fuel : Nat) (s s1 : ProcState)
    (hd : drainLocal prog fuel s = some s1) : s1.queue = [] := by
  induction fuel generalizing s with
  | zero => simp [drainLocal] at hd
  | succ fuel ih =>
      unfold drainLocal at hd
      rcases hq : s.queue with _ | ⟨h, t⟩
      · rw [hq] at hd
        cases hd
        exact hq
      · rw [hq] at hd
        exact ih _ hd

theorem drainInboxGo_dirty_mono (msgs : List ProcMessage) (s : ProcState)
    (d : Bool) (s2 : ProcState)
    (h : drainInboxGo msgs true s = InboxResult.cont d s2) : d = true := by
  induction msgs generalizing s with
  | nil => cases h; rfl
  | cons m rest ih =>
      cases m with
      | NewNeighbor n => exact ih _ h
      | Shutdown => cases h
      | Ready c => exact ih _ h

theorem drainInboxGo_clean (msgs : List ProcMessage) (s s2 : ProcState)
    (h : drainInboxGo msgs false s = InboxResult.cont false s2) :
    s2.queue = s.queue ∧ s2.inbox = s.inbox := by
  induction msgs generalizing s with
  | nil => cases h; exact ⟨rfl, rfl⟩
  | cons m rest ih =>
      cases m with
      | NewNeighbor n =>
          have := ih _ h
          simpa using this
      | Shutdown => cases h
      | Ready c =>
          have := drainInboxGo_dirty_mono rest _ _ _ h
          cases this

theorem drainInbox_clean (s s2 : ProcState)
    (h : drainInbox s = InboxResult.cont false s2) :
    s2.queue = s.queue ∧ s2.inbox = [] := by
  unfold drainInbox at h
  have := drainInboxGo_clean s.inbox _ _ h
  simpa using this

theorem schedule_restart (prog : Program) (fuel : Nat) (s s1 s2 : ProcState)
    (hd : drainLocal prog (fuel + 1) s = some s1)
    (hi : drainInbox s1 = InboxResult.cont true s2) :
    Processor.schedule prog (fuel + 1) s = Processor.schedule prog fuel s2 := by
  conv_lhs => unfold Processor.schedule
  simp only [hd, hi]

theorem schedule_steal_park (prog : Program) (fuel : Nat) (s s1 s2 : ProcState)
    (hd : drainLocal prog (fuel + 1) s = some s1)
    (hi : drainInbox s1 = InboxResult.cont false s2) :
    s2.queue = [] ∧ s2.inbox = []
  ∧ Processor.schedule prog (fuel + 1) s = runCmd prog fuel (stealParkStep prog s2) := by
  have hq := drainLocal_empty_queue prog (fuel + 1) s s1 hd
  have hcl := drainInbox_clean s1 s2 hi
  refine ⟨hcl.1.trans hq, hcl.2, ?_⟩
  conv_lhs => unfold Processor.schedule
  simp only [hd, hi]
  cases stealParkStep prog s2 <;> rfl

theorem stealOne_preserves (s : ProcState) (j : Nat) :
    (stealOne s j).2.queue = s.queue ∧ (stealOne s j).2.inbox = s.inbox := by
  unfold stealOne
  split <;> exact ⟨rfl, rfl⟩

theorem stealLoopGo_nothing (prog : Program) (r n : Nat) (idxs : List Nat) (s s2 : ProcState)
    (h : stealLoopGo prog r n idxs s = StealOutcome.nothingStolen s2) :
    s2.queue = s.queue ∧ s2.inbox = s.inbox := by
  induction idxs generalizing s with
  | nil => cases h; exact ⟨rfl, rfl⟩
  | cons i rest ih =>
      unfold stealLoopGo at h
      revert h
      rcases hst : stealOne { s with stealTried := s.stealTried ++ [(r + i) % n] }
          ((r + i) % n) with ⟨_ | hh, st⟩ <;> intro h
      · have h2 := ih st h
        have hp := stealOne_preserves { s with stealTried := s.stealTried ++ [(r + i) % n] }
          ((r + i) % n)
        rw [hst] at hp
        exact ⟨h2.1.trans hp.1, h2.2.trans hp.2⟩
      · cases h

theorem stealPhase_clean (prog : Program) (r : Nat) (s s2 : ProcState)
    (h : stealPhase prog r s = StealOutcome.nothingStolen s2) :
    s2.queue = s.queue ∧ s2.inbox = s.inbox :=
  stealLoopGo_nothing prog r s.neighbors.length (List.range s.neighbors.length) s s2 h

theorem setInbox_nil (s : ProcState) (hi : s.inbox = []) :
    ({ s with inbox := [] } : ProcState) = s := by
  cases s
  simp_all

theorem setQueue_nil (s : ProcState) (hq : s.queue = []) :
    ({ s with queue := [] } : ProcState) = s := by
  cases s
  simp_all

theorem setPref_self (c : Handle) (p : Nat) (hp : c.pref = some p) :
    ({ c with pref := some p } : Handle) = c := by
  cases c
  simp_all

theorem drainLocal_nil (prog : Program) (fuel : Nat) (s : ProcState) (hq : s.queue = []) :
    drainLocal prog (fuel + 1) s = some s := by
  conv_lhs => unfold drainLocal
  rw [hq]

theorem sched_noop_core (prog : Program) (fuel : Nat) (s : ProcState) (c : Handle)
    (hq : s.queue = []) (hi : s.inbox = []) (hp : c.pref = some s.procId) :
    Processor.schedule prog (fuel + 2) { s with inbox := [ProcMessage.Ready c] }
      = Processor.schedule prog (fuel + 1) { s with queue := [c] }
  ∧ ∀ f, drainLocal prog (f + 1) { s with queue := [c] }
      = drainLocal prog f (Processor.resume prog s c) := by
  have h1 : drainLocal prog (fuel + 2) { s with inbox := [ProcMessage.Ready c] }
      = some { s with inbox := [ProcMessage.Ready c] } :=
    drainLocal_nil prog (fuel + 1) _ hq
  have h2 : drainInbox { s with inbox := [ProcMessage.Ready c] }
      = InboxResult.cont true { s with queue := [c] } := by
    unfold drainInbox
    show drainInboxGo [ProcMessage.Ready c] false { s with inbox := [] } = _
    rw [setInbox_nil s hi]
    show InboxResult.cont true (Processor.ready s { c with pref := some s.procId }) = _
    rw [setPref_self c s.procId hp]
    show InboxResult.cont true { s with queue := c :: s.queue } = _
    rw [hq]
  constructor
  · exact schedule_restart prog (fuel + 1) _ _ _ h1 h2
  · intro f
    show drainLocal prog f (Processor.resume prog { s with queue := ([] : List Handle) } c) = _
    rw [setQueue_nil s hq]

theorem parkStep_shutdown (s : ProcState) (r : List ProcMessage)
    (hi : s.inbox = []) (ha : s.arrivals = ProcMessage.Shutdown :: r) :
    parkStep s = ParkOutcome.exitShutdown { s with idleSet := true, arrivals := r } := by
  simp [parkStep, recvBlocking, hi, ha]

theorem parkStep_newNeighbor (s : ProcState) (n : List Handle) (r : List ProcMessage)
    (hi : s.inbox = []) (ha : s.arrivals = ProcMessage.NewNeighbor n :: r) :
    parkStep s
      = ParkOutcome.resumedLoop
          { s with arrivals := r, neighbors := s.neighbors ++ [n], idleSet := false } := by
  simp [parkStep, recvBlocking, hi, ha]

theorem parkStep_ready (s : ProcState) (c : Handle) (r : List ProcMessage)
    (hi : s.inbox = []) (ha : s.arrivals = ProcMessage.Ready c :: r) :
    parkStep s
      = ParkOutcome.resumedLoop
          { s with arrivals := r,
                   queue := { c with pref := some s.procId } :: s.queue,
                   idleSet := false } := by
  simp [parkStep, recvBlocking, Processor.ready, hi, ha]

theorem shutdownDrain_idleSet (s : ProcState) :
    (shutdownDrain s).idleSet = s.idleSet := by
  unfold shutdownDrain
  rw [drainChannelGo_spec, drainQueueGo_spec]

/-- C1: in the scheduling loop, (i) whenever the local queue is non empty
the next action of the local drain is to pop the head and resume it;
(ii) if the non blocking Inbox drain marked the queue dirty the loop
restarts from the local drain (the restart rule); (iii) the steal and park
phase is reached only through the clean Inbox drain, at which point both
the local queue and the observed Inbox are empty; (iv) if the steal walk
finds nothing, the park step runs on a state whose queue and Inbox are
unchanged, hence still empty. -/
theorem claim1_loop_order (prog : Program) :
    (∀ (fuel : Nat) (s : ProcState) (h : Handle) (t : List Handle), s.queue = h :: t →
        drainLocal prog (fuel + 1) s
          = drainLocal prog fuel (Processor.resume prog { s with queue := t } h))
  ∧ (∀ (fuel : Nat) (s s1 s2 : ProcState), drainLocal prog (fuel + 1) s = some s1 →
        drainInbox s1 = InboxResult.cont true s2 →
        Processor.schedule prog (fuel + 1) s = Processor.schedule prog fuel s2)
  ∧ (∀ (fuel : Nat) (s s1 s2 : ProcState), drainLocal prog (fuel + 1) s = some s1 →
        drainInbox s1 = InboxResult.cont false s2 →
        s2.queue = [] ∧ s2.inbox = []
          ∧ Processor.schedule prog (fuel + 1) s = runCmd prog fuel (stealParkStep prog s2))
  ∧ (∀ (r : Nat) (s s2 : ProcState), stealPhase prog r s = StealOutcome.nothingStolen s2 →
        s2.queue = s.queue ∧ s2.inbox = s.inbox) :=
  ⟨fun fuel s h t hq => drainLocal_pop prog fuel s h t hq,
   fun fuel s s1 s2 hd hi => schedule_restart prog fuel s s1 s2 hd hi,
   fun fuel s s1 s2 hd hi => schedule_steal_park prog fuel s s1 s2 hd hi,
   fun r s s2 h => stealPhase_clean prog r s s2 h⟩

/-- Witness for C1 at concrete states: a queue with one handle pops it
next; a state whose Inbox holds one Ready message restarts the loop on the
drained state; an idle state reaches the steal and park phase with empty
queue and Inbox; the empty steal walk preserves both. -/
theorem claim1_loop_order_witness :
    (drainLocal emptyProg 1 oneQueuedP
        = drainLocal emptyProg 0
            (Processor.resume emptyProg { oneQueuedP with queue := [] } { cid := 5 }))
  ∧ (Processor.schedule emptyProg 1 oneInboxP
        = Processor.schedule emptyProg 0 oneInboxDrainedP)
  ∧ (idleP.queue = [] ∧ idleP.inbox = []
      ∧ Processor.schedule emptyProg 1 idleP
          = runCmd emptyProg 0 (stealParkStep emptyProg idleP))
  ∧ (idleP.queue = idleP.queue ∧ idleP.inbox = idleP.inbox) := by
  obtain ⟨ha, hb, hc, hd⟩ := claim1_loop_order emptyProg
  exact ⟨ha 0 oneQueuedP { cid := 5 } [] (by decide),
         hb 0 oneInboxP oneInboxP oneInboxDrainedP (by decide) (by decide),
         hc 0 idleP idleP idleP (by decide) (by decide),
         hd 0 idleP idleP (by decide)⟩

/-- C2: ready pushes the handle to the head of the local queue; after any
sequence of ready pushes with no intervening pop, the next pop returns the
most recently pushed handle (LIFO); and the processor_sched_order scenario
(spawn children 1, 2, 3, emit 0, sched, emit 99) produces the shared
vector [0, 3, 2, 1, 99]. -/
theorem claim2_ready_lifo :
    (∀ (s : ProcState) (c : Handle), (Processor.ready s c).queue = c :: s.queue)
  ∧ (∀ (s : ProcState) (cs : List Handle) (c : Handle),
        ((cs ++ [c]).foldl Processor.ready s).queue.head? = some c)
  ∧ (Processor.schedule schedOrderProg 10 schedOrderStart).st.output = [0, 3, 2, 1, 99] := by
  refine ⟨fun s c => rfl, fun s cs c => ?_, by decide⟩
  rw [foldl_ready_queue]
  simp

/-- C3: when a driven coroutine yields with State.Suspended, the driver
appends a Ready message carrying the handle to the Processor's own Inbox
and leaves the local queue exactly as the coroutine's own actions left it,
never pushing the handle onto the queue itself. -/
theorem claim3_suspended_to_inbox (prog : Program) (s : ProcState) (h : Handle)
    (acts : List CoroAction)
    (hseg : (prog h.cid).get? h.pc = some ⟨acts, Yield.suspend⟩) :
    (Processor.resume prog s h).inbox
        = s.inbox ++ [ProcMessage.Ready { h with st := State.Suspended, pc := h.pc + 1 }]
  ∧ (Processor.resume prog s h).queue = (applyActions s acts).queue :=
  resume_suspend prog s h acts hseg

/-- Witness for C3: resuming coroutine 2 of suspendProg (emit 4, then
sched) posts its handle to the Inbox and leaves the queue as emit left it. -/
theorem claim3_suspended_to_inbox_witness :
    (Processor.resume suspendProg idleP { cid := 2 }).inbox
        = idleP.inbox ++ [ProcMessage.Ready { cid := 2, pc := 1, st := State.Suspended }]
  ∧ (Processor.resume suspendProg idleP { cid := 2 }).queue
        = (applyActions idleP [CoroAction.emit 4]).queue :=
  claim3_suspended_to_inbox suspendProg idleP { cid := 2 } [CoroAction.emit 4] (by decide)

/-- Counterexample to C4: in the scenario of the claim (local queue empty,
Inbox holding one Ready for the other coroutine, the running coroutine 0
calls sched), the code resumes the suspender again BEFORE it first resumes
the other coroutine: the resume log is [0, 0, 1], and the first resume of
coroutine 1 does not precede the second resume of coroutine 0.  Both
handles reach the queue through the Inbox in FIFO order, but the LIFO
queue pops the suspender (pushed last) first. -/
theorem claim4_counterexample :
    (Processor.schedule c4Prog 8 c4Start).st.resumeLog = [0, 0, 1]
  ∧ ¬ (firstIdx (Processor.schedule c4Prog 8 c4Start).st.resumeLog 1
        < secondIdx (Processor.schedule c4Prog 8 c4Start).st.resumeLog 0) := by
  decide

/-- C4 as amended: if a coroutine calls sched while the local queue is
empty and the Inbox already holds one Ready(other) from a peer, then the
SUSPENDER is resumed before other (the opposite of the claimed order): the
suspender re-enters via the Inbox behind other in FIFO order, but the LIFO
local queue resumes the most recently pushed handle first.  Whatever
values the two bodies emit after that point appear in suspender-first
order. -/
theorem claim4_amended (a b : Nat) :
    (Processor.schedule (c4ProgAB a b) 8 c4Start).st.output = [a, b]
  ∧ (Processor.schedule (c4ProgAB a b) 8 c4Start).st.resumeLog = [0, 0, 1]
  ∧ secondIdx (Processor.schedule (c4ProgAB a b) 8 c4Start).st.resumeLog 0
      < firstIdx (Processor.schedule (c4ProgAB a b) 8 c4Start).st.resumeLog 1 := by
  refine ⟨rfl, rfl, ?_⟩
  show secondIdx [0, 0, 1] 0 < firstIdx [0, 0, 1] 1
  decide

/-- C5: when a driven coroutine yields with State.Parked and a non zero
carrier word, the driver reads the two word descriptor (fnPtr, dataPtr)
and invokes the continuation with the handle (recorded in parkedCalls),
transferring ownership: the handle is not dropped, not sent to the Inbox,
and not pushed onto the queue by the driver.  With a zero carrier word the
handle is simply dropped and no continuation is invoked. -/
theorem claim5_parked_continuation (prog : Program) :
    (∀ (s : ProcState) (h : Handle) (acts : List CoroAction) (f dd : Nat),
        (prog h.cid).get? h.pc = some ⟨acts, Yield.parkCarrier (some (f, dd))⟩ →
        (Processor.resume prog s h).parkedCalls = s.parkedCalls ++ [(f, dd, h.cid)]
      ∧ (Processor.resume prog s h).dropped = s.dropped
      ∧ (Processor.resume prog s h).inbox = s.inbox
      ∧ (Processor.resume prog s h).queue = (applyActions s acts).queue)
  ∧ (∀ (s : ProcState) (h : Handle) (acts : List CoroAction),
        (prog h.cid).get? h.pc = some ⟨acts, Yield.parkCarrier none⟩ →
        (Processor.resume prog s h).dropped = s.dropped ++ [h.cid]
      ∧ (Processor.resume prog s h).parkedCalls = s.parkedCalls
      ∧ (Processor.resume prog s h).inbox = s.inbox) :=
  ⟨fun s h acts f dd hseg => resume_parked prog s h acts f dd hseg,
   fun s h acts hseg => resume_parked_zero prog s h acts hseg⟩

/-- Witness for C5: under parkProg, coroutine 0 parks with descriptor
(11, 22) and its handle goes to the continuation; coroutine 1 parks with a
zero carrier and its handle is dropped. -/
theorem claim5_parked_continuation_witness :
    ((Processor.resume parkProg idleP { cid := 0 }).parkedCalls
        = idleP.parkedCalls ++ [(11, 22, 0)]
      ∧ (Processor.resume parkProg idleP { cid := 0 }).dropped = idleP.dropped
      ∧ (Processor.resume parkProg idleP { cid := 0 }).inbox = idleP.inbox
      ∧ (Processor.resume parkProg idleP { cid := 0 }).queue
          = (applyActions idleP []).queue)
  ∧ ((Processor.resume parkProg idleP { cid := 1 }).dropped = idleP.dropped ++ [1]
      ∧ (Processor.resume parkProg idleP { cid := 1 }).parkedCalls = idleP.parkedCalls
      ∧ (Processor.resume parkProg idleP { cid := 1 }).inbox = idleP.inbox) :=
  ⟨(claim5_parked_continuation parkProg).1 idleP { cid := 0 } [] 11 22 (by decide),
   (claim5_parked_continuation parkProg).2 idleP { cid := 1 } [] (by decide)⟩

/-- C6: if the local queue and the Inbox are both empty at the point of
yield, sched is observationally a no-op: the suspender is the next and
only coroutine the loop resumes, and it is resumed on exactly the state it
yielded from.  Formally, running the loop on the post yield state (queue
empty, Inbox holding only the suspender's Ready message) equals running it
poised to pop the suspender alone, and from there the next action resumes
the suspender on the unchanged state s. -/
theorem claim6_sched_noop (prog : Program) (fuel : Nat) (s : ProcState) (c : Handle)
    (hq : s.queue = []) (hi : s.inbox = []) (hp : c.pref = some s.procId) :
    Processor.schedule prog (fuel + 2) { s with inbox := [ProcMessage.Ready c] }
      = Processor.schedule prog (fuel + 1) { s with queue := [c] }
  ∧ ∀ f, drainLocal prog (f + 1) { s with queue := [c] }
      = drainLocal prog f (Processor.resume prog s c) :=
  sched_noop_core prog fuel s c hq hi hp

/-- Witness for C6 at the idle state and coroutine noopC. -/
theorem claim6_sched_noop_witness :
    Processor.schedule emptyProg 2 { idleP with inbox := [ProcMessage.Ready noopC] }
      = Processor.schedule emptyProg 1 { idleP with queue := [noopC] }
  ∧ drainLocal emptyProg 1 { idleP with queue := [noopC] }
      = drainLocal emptyProg 0 (Processor.resume emptyProg idleP noopC) := by
  obtain ⟨h1, h2⟩ :=
    claim6_sched_noop emptyProg 0 idleP noopC (by decide) (by decide) (by decide)
  exact ⟨h1, h2 0⟩

/-- C7: the shutdown drain first empties the Inbox, dropping the handle of
every Ready message and ignoring every other message, and only afterwards
empties the local queue dropping each popped handle; afterwards both the
Inbox and the queue are empty, and the drop order is all Inbox handles
(in FIFO order) followed by all queue handles (in pop order). -/
theorem claim7_shutdown_drain (s : ProcState) :
    (shutdownDrain s).inbox = [] ∧ (shutdownDrain s).queue = []
  ∧ (shutdownDrain s).dropped
      = s.dropped ++ readyCids s.inbox ++ s.queue.map Handle.cid :=
  shutdownDrain_spec s

/-- C8: in the park step, park_processor records the Processor as idle
before the blocking receive; if the receive returns Shutdown the loop
exits immediately through the shutdown drain and unpark_processor is never
called on that path, so the idle record stays set (the drain preserves
it); only after the receive returns NewNeighbor or Ready is the message
handled and the idle record cleared. -/
theorem claim8_park_shutdown_no_unpark :
    (∀ (s : ProcState) (r : List ProcMessage), s.inbox = [] →
        s.arrivals = ProcMessage.Shutdown :: r →
        parkStep s = ParkOutcome.exitShutdown { s with idleSet := true, arrivals := r })
  ∧ (∀ (s : ProcState) (n : List Handle) (r : List ProcMessage), s.inbox = [] →
        s.arrivals = ProcMessage.NewNeighbor n :: r →
        parkStep s = ParkOutcome.resumedLoop
          { s with arrivals := r, neighbors := s.neighbors ++ [n], idleSet := false })
  ∧ (∀ (s : ProcState) (c : Handle) (r : List ProcMessage), s.inbox = [] →
        s.arrivals = ProcMessage.Ready c :: r →
        parkStep s = ParkOutcome.resumedLoop
          { s with arrivals := r,
                   queue := { c with pref := some s.procId } :: s.queue,
                   idleSet := false })
  ∧ (∀ s : ProcState,
        cmdOfPark (ParkOutcome.exitShutdown s)
          = LoopCmd.done (SchedResult.shutdown (shutdownDrain s))
      ∧ (shutdownDrain s).idleSet = s.idleSet) :=
  ⟨fun s r hi ha => parkStep_shutdown s r hi ha,
   fun s n r hi ha => parkStep_newNeighbor s n r hi ha,
   fun s c r hi ha => parkStep_ready s c r hi ha,
   fun s => ⟨rfl, shutdownDrain_idleSet s⟩⟩

/-- Witness for C8 at concrete parked states receiving each of the three
messages. -/
theorem claim8_park_shutdown_no_unpark_witness :
    parkStep parkedShutdownP
      = ParkOutcome.exitShutdown { parkedShutdownP with idleSet := true, arrivals := [] }
  ∧ parkStep parkedNeighborP
      = ParkOutcome.resumedLoop
          { parkedNeighborP with
              arrivals := [], neighbors := parkedNeighborP.neighbors ++ [[]],
              idleSet := false }
  ∧ parkStep parkedReadyP
      = ParkOutcome.resumedLoop
          { parkedReadyP with
              arrivals := [], queue := { cid := 9, pref := some 0 } :: parkedReadyP.queue,
              idleSet := false }
  ∧ (cmdOfPark (ParkOutcome.exitShutdown idleP)
        = LoopCmd.done (SchedResult.shutdown (shutdownDrain idleP))
      ∧ (shutdownDrain idleP).idleSet = idleP.idleSet) := by
  obtain ⟨h1, h2, h3, h4⟩ := claim8_park_shutdown_no_unpark
  exact ⟨h1 parkedShutdownP [] (by decide) (by decide),
         h2 parkedNeighborP [] [] (by decide) (by decide),
         h3 parkedReadyP { cid := 9 } [] (by decide) (by decide),
         h4 idleP⟩

/-- C9: calling Processor.sched, or Processor.yield_with with any state,
while no coroutine is current is a total no-op: the function is total (no
panic) and returns the state unchanged. -/
theorem claim9_yield_no_current (s : ProcState) (r : State) (h : s.current = none) :
    Processor.yield_with s r = s ∧ Processor.sched s = s :=
  ⟨yield_with_none s r h, yield_with_none s State.Suspended h⟩

/-- Witness for C9 at the idle state. -/
theorem claim9_yield_no_current_witness :
    Processor.yield_with idleP State.Parked = idleP ∧ Processor.sched idleP = idleP :=
  claim9_yield_no_current idleP State.Parked rfl

/-- C10: with no peer stealers the steal phase performs zero steal
attempts (the state, including the ghost list of attempted victims, is
returned untouched, so the modulo by the stealer count is never
evaluated), and the loop falls through directly to the park step. -/
theorem claim10_steal_no_neighbors :
    (∀ (prog : Program) (r : Nat) (s : ProcState), s.neighbors = [] →
        stealPhase prog r s = StealOutcome.nothingStolen s)
  ∧ (∀ (prog : Program) (s : ProcState), s.neighbors = [] →
        stealParkStep prog s = cmdOfPark (parkStep { s with rng := rngNext s.rng })) :=
  ⟨fun prog r s h => stealPhase_no_neighbors prog r s h,
   fun prog s h => stealParkStep_no_neighbors prog s h⟩

/-- Witness for C10 at the idle state, which has no neighbors. -/
theorem claim10_steal_no_neighbors_witness :
    stealPhase emptyProg 0 idleP = StealOutcome.nothingStolen idleP
  ∧ stealParkStep emptyProg idleP
      = cmdOfPark (parkStep { idleP with rng := rngNext idleP.rng }) := by
  obtain ⟨h1, h2⟩ := claim10_steal_no_neighbors
  exact ⟨h1 emptyProg 0 idleP rfl, h2 emptyProg idleP rfl⟩

end CoioModel
